import Mathlib

/-!
Shallow embedding of the component registry and call-graph builder in
`vendor/github.com/ServiceWeaver/weaver/runtime/codegen/registry.go`.

Go's `reflect.Type` values are modelled by the inductive `Ty` below;
structural identity of `Ty` values models Go's identity of type
descriptors.  Go maps are modelled by association lists together with
`lookupA` (map read) and `updA` (map assignment: it overwrites the entry
at an existing key and otherwise appends).  The mutable registry of Go
becomes explicit state passing: `register` returns the error produced
together with the registry state after the call.  Errors are modelled as
the strings the Go code formats.
-/

set_option maxRecDepth 8192

namespace Weaver

/-- The subset of `reflect.Kind` that `registry.go` inspects:
`reflect.Interface`, `reflect.Struct`, and everything else. -/
inductive Kind : Type where
  | interface : Kind
  | struct : Kind
  | other : Kind
deriving DecidableEq

mutual
/-- Model of Go `reflect.Type`: package path, type name, kind, and the
declared fields (name / type pairs, in declaration order) when the type
is a struct.  `registry.go` consults exactly these pieces: `Kind()`,
`PkgPath()`, `Name()`, `NumField()`, `Field(i).Name`, `Field(i).Type`. -/
inductive Ty : Type where
  | mk : String → String → Kind → Fields → Ty
  deriving DecidableEq
/-- A struct type's field list (mutual with `Ty`). -/
inductive Fields : Type where
  | nil : Fields
  | fcons : String → Ty → Fields → Fields
  deriving DecidableEq
end

/-- View of a `Fields` value as a list of (field name, field type) pairs. -/
def Fields.toList : Fields → List (String × Ty)
  | .nil => []
  | .fcons n t fs => (n, t) :: fs.toList

/-- Build a `Fields` value from a list of (field name, field type) pairs. -/
def fieldsOfList : List (String × Ty) → Fields
  | [] => .nil
  | (n, t) :: rest => .fcons n t (fieldsOfList rest)

def Ty.pkgPath : Ty → String
  | .mk p _ _ _ => p

def Ty.name : Ty → String
  | .mk _ n _ _ => n

def Ty.kind : Ty → Kind
  | .mk _ _ k _ => k

def Ty.fields : Ty → List (String × Ty)
  | .mk _ _ _ fs => fs.toList

/-- The characters after the last occurrence of `sep`: `acc` holds the
(reversed) characters of the segment read so far. -/
def lastSeg (sep : Char) : List Char → List Char → List Char
  | [], acc => acc.reverse
  | c :: rest, acc => if c = sep then lastSeg sep rest [] else lastSeg sep rest (c :: acc)

/-- Last element of a slash-separated package path: the package name that
Go's `reflect.Type.String()` prints before the type name. -/
def pkgBase (path : String) : String :=
  ⟨lastSeg '/' path.data []⟩

/-- Rendering of a type as Go's `%v` / `reflect.Type.String()` prints it
for the defined (named) types this development uses: the package name
followed by a dot and the type name. -/
def Ty.string (t : Ty) : String :=
  if t.pkgPath = "" then t.name else pkgBase t.pkgPath ++ "." ++ t.name

/-- `%v` of a possibly-nil `reflect.Type`: Go prints `<nil>` for nil. -/
def tyOptString : Option Ty → String
  | none => "<nil>"
  | some t => t.string

/-- `fmt`'s `%q` for the registration names this development uses (names
containing no characters that `%q` would escape): the string in double
quotes. -/
def goQuote (s : String) : String := "\"" ++ s ++ "\""

/-- The `Registration` struct of `registry.go`.  The four stub factory
functions are opaque to the registry — it only ever compares them with
`nil` — so each is modelled by its presence: `Option Unit`, with `none`
standing for a Go `nil` function value. -/
structure Registration where
  Name : String
  Iface : Option Ty
  Impl : Option Ty
  Routed : Bool
  Listeners : List String
  NoRetry : List Int
  LocalStubFn : Option Unit
  ClientStubFn : Option Unit
  ServerStubFn : Option Unit
  ReflectStubFn : Option Unit
  RefData : String
deriving DecidableEq

/-- Association-list read, the model of a Go map lookup: the value at the
first matching key, if any. -/
def lookupA {α β : Type} [DecidableEq α] (l : List (α × β)) (k : α) : Option β :=
  match l with
  | [] => none
  | (k', v) :: t => if k' = k then some v else lookupA t k

/-- Association-list write, the model of Go map assignment `m[k] = v`:
replace the entry at `k` when one exists, otherwise append `(k, v)`. -/
def updA {α β : Type} [DecidableEq α] (l : List (α × β)) (k : α) (v : β) : List (α × β) :=
  match l with
  | [] => [(k, v)]
  | (k', v') :: t => if k' = k then (k, v) :: t else (k', v') :: updA t k v

/-- The `registry` struct: its two maps, `components` keyed by the
interface type (`reflect.Type`, possibly nil, hence `Option Ty`) and
`byName` keyed by the full component name.  The mutex only serialises
access and has no sequential content. -/
structure Registry where
  components : List (Option Ty × Registration)
  byName : List (String × Registration)
deriving DecidableEq

/-- The zero value of `registry`: both maps empty (Go's nil maps read as
empty; `register` lazily allocates them, which the list model makes a
no-op). -/
def emptyRegistry : Registry := { components := [], byName := [] }

/-- `verifyRegistration` of `registry.go`: the sequential field checks,
each returning the error string the Go code constructs; `none` is the
Go `nil` error. -/
def verifyRegistration (reg : Registration) : Option String :=
  match reg.Iface with
  | none => some "missing component type"
  | some iface =>
    if iface.kind ≠ Kind.interface then some "component type is not an interface" else
    match reg.Impl with
    | none => some "missing implementation type"
    | some impl =>
      if impl.kind ≠ Kind.struct then some "implementation type is not a struct" else
      if reg.LocalStubFn = none then some "nil LocalStubFn" else
      if reg.ClientStubFn = none then some "nil ClientStubFn" else
      if reg.ServerStubFn = none then some "nil ServerStubFn" else
      none

/-- `(*registry).register`: verify, wrap a verification error with the
registration's name (`fmt.Errorf("Register(%q): %w", ...)`); otherwise
report a conflict when the interface type already has an entry, naming
the existing and the new implementation types; otherwise store the
registration in both maps.  The returned pair is (error, state after the
call): Go mutates `r` in place only on the success path. -/
def Registry.register (r : Registry) (reg : Registration) : Option String × Registry :=
  match verifyRegistration reg with
  | some err => (some ("Register(" ++ goQuote reg.Name ++ "): " ++ err), r)
  | none =>
    match lookupA r.components reg.Iface with
    | some old =>
      (some ("component " ++ reg.Name ++ " already registered for type " ++
             tyOptString old.Impl ++ " when registering " ++ tyOptString reg.Impl), r)
    | none =>
      (none, { components := updA r.components reg.Iface reg,
               byName := updA r.byName reg.Name reg })

/-- `(*registry).allComponents`: a fresh slice holding the stored
registrations (the map's values). -/
def Registry.allComponents (r : Registry) : List Registration :=
  r.components.map Prod.snd

/-- `(*registry).find`: lookup in the name map; Go's `(reg, ok)` pair is
the `Option`. -/
def Registry.find (r : Registry) (path : String) : Option Registration :=
  lookupA r.byName path

/-- Modelled from the spec: the configuration-shape resolution boundary
of §6.  `config.Config` (package `internal/config`) and
`runtime.ParseConfigSection` (package `runtime`) are not among this
repository's sources.  `hasConfig impl` models
`config.Config(reflect.New(impl)) != nil` — whether the implementation
shape declares a configuration capability; `parseError impl path cfg`
models the error, if any, of
`runtime.ParseConfigSection(path, "", map[string]string{path: cfg}, config)`. -/
structure ConfigExternal where
  hasConfig : Option Ty → Bool
  parseError : Option Ty → String → String → Option String

/-- `ComponentConfigValidator` of `registry.go`, with the global registry
and the external configuration machinery passed explicitly. -/
def ComponentConfigValidator (ext : ConfigExternal) (r : Registry)
    (path cfg : String) : Option String :=
  match r.find path with
  | none => none
  | some info =>
    if ext.hasConfig info.Impl = false then
      some ("unexpected configuration for component " ++ info.Name ++
            " that does not support configuration (add a weaver.WithConfig[configType] embedded field to " ++
            tyOptString info.Iface ++ ")")
    else
      match ext.parseError info.Impl path cfg with
      | some err => some (tyOptString info.Iface ++ ": bad config: " ++ err)
      | none => none

/-- The `CallEdge` struct: `Caller` is a registration's (possibly nil)
interface type, `Callee` the type held by a `weaver.Ref[T]` field. -/
structure CallEdge where
  Caller : Option Ty
  Callee : Ty
deriving DecidableEq

/-- The field-type test inside `CallGraph`: the field's type is
`weaver.Ref[T]` — declared in package `github.com/ServiceWeaver/weaver`,
name starting with `Ref[`, a struct with exactly one field named
`value`. -/
def isRefField (ref : Ty) : Bool :=
  ref.pkgPath == "github.com/ServiceWeaver/weaver" &&
  String.isPrefixOf "Ref[" ref.name &&
  ref.kind == Kind.struct &&
  ref.fields.length == 1 &&
  (ref.fields.map Prod.fst).head? == some "value"

/-- `ref.Field(0).Type`: the type of a `Ref[T]` wrapper's single field. -/
def refCallee (ref : Ty) : Option Ty :=
  (ref.fields.head?).map Prod.snd

/-- The fields of a registration's implementation type, as `CallGraph`
iterates them.  (`impl.NumField()` would panic in Go were `Impl` nil or
not a struct; every registration stored by `register` has a struct
`Impl`, so the `none` branch is unreachable on registry-produced
states.) -/
def Registration.implFields (reg : Registration) : List (String × Ty) :=
  match reg.Impl with
  | some impl => impl.fields
  | none => []

/-- The inner loop of `CallGraph` for one registration: one edge per
`weaver.Ref[T]` field, caller the registration's interface type, callee
the field's wrapped type. -/
def edgesOf (reg : Registration) : List CallEdge :=
  reg.implFields.filterMap (fun f =>
    if isRefField f.2 then
      (refCallee f.2).map (fun c => { Caller := reg.Iface, Callee := c })
    else none)

/-- `CallGraph` of `registry.go`: for every registered component, append
the edges contributed by its implementation's `Ref` fields. -/
def CallGraph (r : Registry) : List CallEdge :=
  r.allComponents.foldl (fun result reg => result ++ edgesOf reg) []

/-- The validator's checks in the order §4.1 of the spec states them —
interface present, interface of interface kind, implementation present,
implementation of struct kind, local stub, client stub, server stub —
each paired with the error it reports.  This is a second definition
written from the spec's words, to be compared with
`verifyRegistration`. -/
def specChecks : List ((Registration → Bool) × String) :=
  [ (fun reg => decide (reg.Iface = none), "missing component type"),
    (fun reg => decide (reg.Iface.map Ty.kind ≠ some Kind.interface), "component type is not an interface"),
    (fun reg => decide (reg.Impl = none), "missing implementation type"),
    (fun reg => decide (reg.Impl.map Ty.kind ≠ some Kind.struct), "implementation type is not a struct"),
    (fun reg => decide (reg.LocalStubFn = none), "nil LocalStubFn"),
    (fun reg => decide (reg.ClientStubFn = none), "nil ClientStubFn"),
    (fun reg => decide (reg.ServerStubFn = none), "nil ServerStubFn") ]

/-- Fail-fast evaluation of `specChecks`: the error of the earliest
failing check, if any. -/
def firstFailing (reg : Registration) : Option String :=
  (specChecks.find? (fun c => c.1 reg)).map Prod.snd

/-- The two registry indexes hold exactly corresponding entries: every
stored pair sits under its registration's own key, and the same
registration is found in the other index under that registration's other
key. -/
def Inv (r : Registry) : Prop :=
  (∀ p ∈ r.components, p.1 = p.2.Iface ∧ lookupA r.byName p.2.Name = some p.2) ∧
  (∀ p ∈ r.byName, p.1 = p.2.Name ∧ lookupA r.components p.2.Iface = some p.2)

/-! ### Concrete sample components used by witnesses and counterexamples -/

/-- A sample component interface type `main.A`. -/
def tyA : Ty := .mk "example.com/main" "A" Kind.interface .nil

/-- A second sample component interface type `main.B`. -/
def tyB : Ty := .mk "example.com/main" "B" Kind.interface .nil

/-- A field-free struct implementing `A`. -/
def implA : Ty := .mk "example.com/main" "aImpl" Kind.struct .nil

/-- The reference wrapper `weaver.Ref[main.A]`. -/
def refA : Ty :=
  .mk "github.com/ServiceWeaver/weaver" "Ref[main.A]" Kind.struct (.fcons "value" tyA .nil)

/-- A struct implementing `B` that holds one `weaver.Ref[main.A]` field. -/
def implB : Ty := .mk "example.com/main" "bImpl" Kind.struct (.fcons "a" refA .nil)

/-- A valid registration of component `A`. -/
def regA : Registration :=
  { Name := "example.com/main/A", Iface := some tyA, Impl := some implA,
    Routed := false, Listeners := [], NoRetry := [],
    LocalStubFn := some (), ClientStubFn := some (), ServerStubFn := some (),
    ReflectStubFn := some (), RefData := "" }

/-- A valid registration of component `B`, depending on `A`. -/
def regB : Registration :=
  { Name := "example.com/main/B", Iface := some tyB, Impl := some implB,
    Routed := false, Listeners := [], NoRetry := [],
    LocalStubFn := some (), ClientStubFn := some (), ServerStubFn := some (),
    ReflectStubFn := some (), RefData := "" }

/-- Registry holding `A` then `B` (in that registration order). -/
def rAB : Registry := (Registry.register (Registry.register emptyRegistry regA).2 regB).2

/-- Registry holding `B` then `A` (the opposite registration order). -/
def rBA : Registry := (Registry.register (Registry.register emptyRegistry regB).2 regA).2

/-- Registry holding only `A`: no dependency-reference field anywhere. -/
def rOnlyA : Registry := (Registry.register emptyRegistry regA).2

/-- `regA` under the name `"dup"`. -/
def regDupA : Registration := { regA with Name := "dup" }

/-- `regB` under the same name `"dup"` (distinct interface type). -/
def regDupB : Registration := { regB with Name := "dup" }

/-- Registry after registering both same-named components. -/
def rDup : Registry :=
  (Registry.register (Registry.register emptyRegistry regDupA).2 regDupB).2

/-! ### Association-list lemmas -/

theorem lookupA_updA_self {α β : Type} [DecidableEq α] (l : List (α × β)) (k : α) (v : β) :
    lookupA (updA l k v) k = some v := by
  induction l with
  | nil => simp [updA, lookupA]
  | cons hd t ih =>
    obtain ⟨k', v'⟩ := hd
    by_cases h : k' = k
    · simp [updA, h, lookupA]
    · simp [updA, h, lookupA, ih]

theorem lookupA_updA_ne {α β : Type} [DecidableEq α] (l : List (α × β)) (k k' : α) (v : β)
    (h : k' ≠ k) : lookupA (updA l k v) k' = lookupA l k' := by
  induction l with
  | nil => simp [updA, lookupA, Ne.symm h]
  | cons hd t ih =>
    obtain ⟨k₀, v₀⟩ := hd
    by_cases h0 : k₀ = k
    · subst h0
      simp [updA, lookupA, Ne.symm h]
    · simp only [updA, if_neg h0, lookupA]
      by_cases h1 : k₀ = k'
      · simp [h1]
      · simp [h1, ih]

theorem updA_of_lookupA_none {α β : Type} [DecidableEq α] (l : List (α × β)) (k : α) (v : β)
    (h : lookupA l k = none) : updA l k v = l ++ [(k, v)] := by
  induction l with
  | nil => simp [updA]
  | cons hd t ih =>
    obtain ⟨k₀, v₀⟩ := hd
    by_cases h0 : k₀ = k
    · simp [lookupA, h0] at h
    · simp only [lookupA, if_neg h0] at h
      simp [updA, h0, ih h]

theorem lookupA_append_of_none {α β : Type} [DecidableEq α] (l l' : List (α × β)) (k : α)
    (h : lookupA l k = none) : lookupA (l ++ l') k = lookupA l' k := by
  induction l with
  | nil => simp
  | cons hd t ih =>
    obtain ⟨k₀, v₀⟩ := hd
    by_cases h0 : k₀ = k
    · simp [lookupA, h0] at h
    · simp only [lookupA, if_neg h0] at h
      simp [lookupA, if_neg h0, ih h]

theorem lookupA_append_of_some {α β : Type} [DecidableEq α] (l l' : List (α × β)) (k : α)
    (v : β) (h : lookupA l k = some v) : lookupA (l ++ l') k = some v := by
  induction l with
  | nil => simp [lookupA] at h
  | cons hd t ih =>
    obtain ⟨k₀, v₀⟩ := hd
    by_cases h0 : k₀ = k
    · simp only [lookupA, if_pos h0] at h ⊢
      exact h
    · simp only [lookupA, if_neg h0] at h ⊢
      exact ih h

/-! ### Lemmas about `register` -/

theorem register_verify_some (r : Registry) (reg : Registration) (err : String)
    (h : verifyRegistration reg = some err) :
    Registry.register r reg = (some ("Register(" ++ goQuote reg.Name ++ "): " ++ err), r) := by
  simp [Registry.register, h]

theorem register_conflict (r : Registry) (reg old : Registration)
    (hv : verifyRegistration reg = none) (hl : lookupA r.components reg.Iface = some old) :
    Registry.register r reg =
      (some ("component " ++ reg.Name ++ " already registered for type " ++
             tyOptString old.Impl ++ " when registering " ++ tyOptString reg.Impl), r) := by
  simp [Registry.register, hv, hl]

theorem register_success (r : Registry) (reg : Registration)
    (hv : verifyRegistration reg = none) (hl : lookupA r.components reg.Iface = none) :
    Registry.register r reg =
      (none, { components := r.components ++ [(reg.Iface, reg)],
               byName := updA r.byName reg.Name reg }) := by
  simp [Registry.register, hv, hl, updA_of_lookupA_none _ _ _ hl]

theorem register_ok_inv (r r' : Registry) (reg : Registration)
    (h : Registry.register r reg = (none, r')) :
    verifyRegistration reg = none ∧ lookupA r.components reg.Iface = none ∧
      r' = { components := r.components ++ [(reg.Iface, reg)],
             byName := updA r.byName reg.Name reg } := by
  cases hv : verifyRegistration reg with
  | some err =>
    rw [register_verify_some r reg err hv] at h
    simp at h
  | none =>
    cases hl : lookupA r.components reg.Iface with
    | some old =>
      rw [register_conflict r reg old hv hl] at h
      simp at h
    | none =>
      rw [register_success r reg hv hl] at h
      exact ⟨rfl, rfl, (Prod.mk.injEq _ _ _ _ ▸ h).2.symm⟩

theorem register_error_state (r : Registry) (reg : Registration)
    (h : (Registry.register r reg).1 ≠ none) : (Registry.register r reg).2 = r := by
  cases hv : verifyRegistration reg with
  | some err => rw [register_verify_some r reg err hv]
  | none =>
    cases hl : lookupA r.components reg.Iface with
    | some old => rw [register_conflict r reg old hv hl]
    | none => rw [register_success r reg hv hl] at h; simp at h

theorem verify_isSome_of_missing_stub (reg : Registration)
    (h : reg.LocalStubFn = none ∨ reg.ClientStubFn = none ∨ reg.ServerStubFn = none) :
    (verifyRegistration reg).isSome = true := by
  obtain ⟨Nm, If, Im, Ro, Ls, Nr, Lf, Cf, Sf, Rf, Rd⟩ := reg
  cases If <;> cases Im <;> cases Lf <;> cases Cf <;> cases Sf <;>
    simp_all [verifyRegistration] <;> (try split) <;> (try simp_all) <;> (try split) <;>
    (try simp_all)

/-! ### Lemmas about `CallGraph` -/

theorem foldl_append_edges (regs : List Registration) (acc : List CallEdge) :
    regs.foldl (fun result reg => result ++ edgesOf reg) acc = acc ++ regs.flatMap edgesOf := by
  induction regs generalizing acc with
  | nil => simp
  | cons hd t ih => simp [List.foldl_cons, ih, List.append_assoc]

theorem CallGraph_eq_flatMap (r : Registry) :
    CallGraph r = r.allComponents.flatMap edgesOf := by
  simp [CallGraph, foldl_append_edges]

theorem refCallee_isSome_of_isRefField (ref : Ty) (h : isRefField ref = true) :
    ∃ c, refCallee ref = some c := by
  have hlen : ref.fields.length = 1 := by
    unfold isRefField at h
    simp only [Bool.and_eq_true, beq_iff_eq] at h
    exact h.1.2
  obtain ⟨f, hf⟩ := List.length_eq_one.mp hlen
  exact ⟨f.2, by simp [refCallee, hf]⟩

theorem edgesOf_length (reg : Registration) :
    (edgesOf reg).length = (reg.implFields.filter (fun f => isRefField f.2)).length := by
  unfold edgesOf
  induction reg.implFields with
  | nil => rfl
  | cons hd t ih =>
    by_cases h : isRefField hd.2
    · obtain ⟨c, hc⟩ := refCallee_isSome_of_isRefField hd.2 h
      simp [List.filterMap_cons, List.filter_cons, h, hc] at ih ⊢
      exact ih
    · simp [List.filterMap_cons, List.filter_cons, h] at ih ⊢
      exact ih

theorem edgesOf_eq_nil (reg : Registration)
    (h : ∀ f ∈ reg.implFields, isRefField f.2 = false) : edgesOf reg = [] := by
  unfold edgesOf
  rw [List.filterMap_eq_nil_iff]
  intro f hf
  simp [h f hf]

/-! ### Claim theorems -/

/-- C9: the validator performs its checks in the stated order — interface
descriptor present, of interface kind, implementation descriptor present,
of struct kind, local stub present, client stub present, server stub
present — stopping at the first failing check and reporting that check's
error naming the offending field: `verifyRegistration` returns exactly
the error of the earliest failing check of the spec-ordered `specChecks`
list. -/
theorem verifyRegistration_eq_spec_order (reg : Registration) :
    verifyRegistration reg = firstFailing reg := by
  obtain ⟨Nm, If, Im, Ro, Ls, Nr, Lf, Cf, Sf, Rf, Rd⟩ := reg
  rcases If with _ | ⟨p1, n1, k1, f1⟩
  · rfl
  · rcases Im with _ | ⟨p2, n2, k2, f2⟩
    · cases k1 <;> rfl
    · cases k1 <;> cases k2 <;> cases Lf <;> cases Cf <;> cases Sf <;> rfl

/-- C4 (amended): a candidate registration failing validation makes
`register` return the structural error wrapped with the registration's
name — `Register("name"): <structural error>` — and leaves the registry
state (both indexes, hence the registry's size) exactly as it was. -/
theorem register_validation_failure_wraps (r : Registry) (reg : Registration) (err : String)
    (h : verifyRegistration reg = some err) :
    Registry.register r reg = (some ("Register(" ++ goQuote reg.Name ++ "): " ++ err), r) :=
  register_verify_some r reg err h

/-- C4 witness: the registration `regA` with its local stub removed fails
validation with `nil LocalStubFn`, and registering it into the empty
registry returns the wrapped error and the unchanged empty registry. -/
theorem register_validation_failure_wraps_w :
    Registry.register emptyRegistry { regA with LocalStubFn := none, Name := "x" } =
      (some "Register(\"x\"): nil LocalStubFn", emptyRegistry) :=
  register_validation_failure_wraps emptyRegistry
    { regA with LocalStubFn := none, Name := "x" } "nil LocalStubFn" (by decide)

/-- C4 counterexample: the claim says the structural error is returned
untouched; at this concrete input the validator's error is
`nil LocalStubFn` while `register` returns
`Register("x"): nil LocalStubFn`, a different string — the error is
wrapped, not untouched (the registry state is indeed unchanged). -/
theorem register_error_not_untouched_cex :
    verifyRegistration { regA with LocalStubFn := none, Name := "x" } =
        some "nil LocalStubFn" ∧
      (Registry.register emptyRegistry { regA with LocalStubFn := none, Name := "x" }).1 =
        some "Register(\"x\"): nil LocalStubFn" ∧
      some ("Register(\"x\"): nil LocalStubFn" : String) ≠ some "nil LocalStubFn" ∧
      (Registry.register emptyRegistry { regA with LocalStubFn := none, Name := "x" }).2 =
        emptyRegistry := by
  refine ⟨by decide, by decide, by decide, by decide⟩

/-- C3 (amended): a candidate registration in which any one of the three
stub factories that the validator checks (local, client, server) is
absent is rejected by `register` and never stored: the call errors and
the registry state is unchanged.  (The reflective stub factory is not
checked — see the counterexample.) -/
theorem register_missing_stub_rejected (r : Registry) (reg : Registration)
    (h : reg.LocalStubFn = none ∨ reg.ClientStubFn = none ∨ reg.ServerStubFn = none) :
    (Registry.register r reg).1.isSome = true ∧ (Registry.register r reg).2 = r := by
  have hv := verify_isSome_of_missing_stub reg h
  obtain ⟨err, herr⟩ := Option.isSome_iff_exists.mp hv
  rw [register_verify_some r reg err herr]
  exact ⟨rfl, rfl⟩

/-- C3 witness: a registration missing only its server stub is rejected
and the empty registry is left unchanged. -/
theorem register_missing_stub_rejected_w :
    ((Registry.register emptyRegistry { regA with ServerStubFn := none }).1.isSome = true ∧
      (Registry.register emptyRegistry { regA with ServerStubFn := none }).2 =
        emptyRegistry) :=
  register_missing_stub_rejected emptyRegistry { regA with ServerStubFn := none }
    (Or.inr (Or.inr rfl))

/-- C3 counterexample: the claim speaks of all four stub factories, but
`verifyRegistration` never checks `ReflectStubFn`: a registration whose
reflective stub factory is absent (every other field valid) is accepted
by `register` and stored — `find` returns it. -/
theorem register_missing_reflect_stub_accepted_cex :
    (Registry.register emptyRegistry { regA with ReflectStubFn := none }).1 = none ∧
      (Registry.register emptyRegistry { regA with ReflectStubFn := none }).2.find
          regA.Name = some { regA with ReflectStubFn := none } := by
  refine ⟨by decide, by decide⟩

/-- C6: a configuration section addressed to an unregistered component is
accepted: whatever the registry state, the external config machinery and
the raw configuration text, `ComponentConfigValidator` returns success
when the name is not registered. -/
theorem configValidator_unregistered_ok (ext : ConfigExternal) (r : Registry)
    (path cfg : String) (h : r.find path = none) :
    ComponentConfigValidator ext r path cfg = none := by
  simp [ComponentConfigValidator, h]

/-- C6 witness: `validateConfig("unregistered", "anything")` on the empty
registry returns ok. -/
theorem configValidator_unregistered_ok_w :
    ComponentConfigValidator ⟨fun _ => false, fun _ _ _ => none⟩ emptyRegistry
      "unregistered" "anything" = none :=
  configValidator_unregistered_ok ⟨fun _ => false, fun _ _ _ => none⟩ emptyRegistry
    "unregistered" "anything" rfl

/-- C7 (amended): for a registered component whose implementation shape
declares no configuration capability, `ComponentConfigValidator` returns
the descriptive error naming the component whatever `rawConfig` is —
including the empty string; the code never tests `rawConfig` for
emptiness. -/
theorem configValidator_no_config_error (ext : ConfigExternal) (r : Registry)
    (path cfg : String) (info : Registration) (hf : r.find path = some info)
    (hc : ext.hasConfig info.Impl = false) :
    ComponentConfigValidator ext r path cfg =
      some ("unexpected configuration for component " ++ info.Name ++
        " that does not support configuration (add a weaver.WithConfig[configType] embedded field to " ++
        tyOptString info.Iface ++ ")") := by
  simp [ComponentConfigValidator, hf, hc]

/-- C7 witness: component `A` registered, no configuration capability,
non-empty configuration text: the descriptive error naming the component
is returned. -/
theorem configValidator_no_config_error_w :
    ComponentConfigValidator ⟨fun _ => false, fun _ _ _ => none⟩
        (Registry.register emptyRegistry regA).2 regA.Name "non-empty-text" =
      some ("unexpected configuration for component example.com/main/A that does not support configuration (add a weaver.WithConfig[configType] embedded field to main.A)") := by
  rw [configValidator_no_config_error ⟨fun _ => false, fun _ _ _ => none⟩
    (Registry.register emptyRegistry regA).2 regA.Name "non-empty-text" regA
    (by decide) rfl]
  decide

/-- C7 counterexample: the claim says success when `rawConfig` is empty;
at this concrete input — component `A` registered, no configuration
capability, `rawConfig = ""` — the code still returns the error. -/
theorem configValidator_empty_config_still_error_cex :
    (ComponentConfigValidator ⟨fun _ => false, fun _ _ _ => none⟩
        (Registry.register emptyRegistry regA).2 regA.Name "").isSome = true ∧
      (Registry.register emptyRegistry regA).2.find regA.Name = some regA := by
  refine ⟨by decide, by decide⟩

/-- C8: `allComponents` snapshots are never retroactively altered by a
later `register` call.  In this pure embedding a returned snapshot is an
immutable value; the theorem states the corresponding frame property of
`register`: the component list after any `register` call is exactly the
old list — every previously returned element at its old position, the
old length preserved — extended by the new registration exactly when the
call succeeded. -/
theorem allComponents_snapshot_append (r : Registry) (reg : Registration) :
    (Registry.register r reg).2.allComponents =
      r.allComponents ++
        (if (Registry.register r reg).1 = none then [reg] else []) := by
  cases hv : verifyRegistration reg with
  | some err => rw [register_verify_some r reg err hv]; simp
  | none =>
    cases hl : lookupA r.components reg.Iface with
    | some old => rw [register_conflict r reg old hv hl]; simp
    | none =>
      rw [register_success r reg hv hl]
      simp [Registry.allComponents]

/-- C10: registration never constrains the name: any candidate that
passes validation and whose interface type is unregistered is accepted
whatever its name string — the empty string included — and `find` on
exactly that string returns the stored record. -/
theorem register_any_name_ok (r : Registry) (reg : Registration)
    (hv : verifyRegistration reg = none)
    (hl : lookupA r.components reg.Iface = none) :
    (Registry.register r reg).1 = none ∧
      (Registry.register r reg).2.find reg.Name = some reg := by
  rw [register_success r reg hv hl]
  exact ⟨rfl, lookupA_updA_self _ _ _⟩

/-- C10 witness: the registration `regA` renamed to the empty string is
accepted by the empty registry and `find ""` returns it. -/
theorem register_any_name_ok_w :
    (Registry.register emptyRegistry { regA with Name := "" }).1 = none ∧
      (Registry.register emptyRegistry { regA with Name := "" }).2.find "" =
        some { regA with Name := "" } :=
  register_any_name_ok emptyRegistry { regA with Name := "" } (by decide) rfl

/-- C1 (amended): for every registry state and registrations `R1` and
`R2` with equal interface descriptors where `R2` itself passes
validation, if `register R1` succeeded then `register R2` returns the
conflict error naming both the existing (`R1`) and the new (`R2`)
implementation descriptors, the registry state is unchanged (no
overwrite), and `find` on `R1`'s name still returns `R1` unchanged. -/
theorem register_duplicate_iface_conflict (r r1 : Registry) (R1 R2 : Registration)
    (h1 : Registry.register r R1 = (none, r1))
    (hv : verifyRegistration R2 = none)
    (hIf : R2.Iface = R1.Iface) :
    Registry.register r1 R2 =
        (some ("component " ++ R2.Name ++ " already registered for type " ++
               tyOptString R1.Impl ++ " when registering " ++ tyOptString R2.Impl), r1) ∧
      r1.find R1.Name = some R1 := by
  obtain ⟨hv1, hl1, hr1⟩ := register_ok_inv r r1 R1 h1
  subst hr1
  have hlook :
      lookupA (r.components ++ [(R1.Iface, R1)]) R2.Iface = some R1 := by
    rw [hIf, lookupA_append_of_none _ _ _ hl1]
    simp [lookupA]
  refine ⟨register_conflict _ R2 R1 hv hlook, ?_⟩
  show lookupA (updA r.byName R1.Name R1) R1.Name = some R1
  exact lookupA_updA_self _ _ _

/-- C1 witness: `regA` registered into the empty registry, then a valid
second registration with the same interface type: the second call errors
and `find` still returns `regA`. -/
theorem register_duplicate_iface_conflict_w :
    (Registry.register (Registry.register emptyRegistry regA).2
        { regB with Iface := some tyA }).1.isSome = true ∧
      (Registry.register emptyRegistry regA).2.find regA.Name = some regA := by
  have h := register_duplicate_iface_conflict emptyRegistry
    (Registry.register emptyRegistry regA).2 regA { regB with Iface := some tyA }
    (by decide) (by decide) rfl
  exact ⟨by rw [h.1]; rfl, h.2⟩

/-- C1 counterexample: the claim quantifies over *every* second
registration `R2` with an equal interface descriptor; when `R2` fails
validation (here: its local stub factory is absent), `register` returns
the wrapped structural error, not the conflict error naming the two
implementation descriptors the claim requires. -/
theorem register_duplicate_iface_invalid_second_cex :
    (Registry.register emptyRegistry regA).1 = none ∧
      ({ regB with Iface := some tyA, LocalStubFn := none } : Registration).Iface =
        regA.Iface ∧
      (Registry.register (Registry.register emptyRegistry regA).2
          { regB with Iface := some tyA, LocalStubFn := none }).1 =
        some "Register(\"example.com/main/B\"): nil LocalStubFn" ∧
      (Registry.register (Registry.register emptyRegistry regA).2
          { regB with Iface := some tyA, LocalStubFn := none }).1 ≠
        some ("component " ++ "example.com/main/B" ++ " already registered for type " ++
              tyOptString regA.Impl ++ " when registering " ++
              tyOptString ({ regB with Iface := some tyA, LocalStubFn := none } :
                Registration).Impl) := by
  refine ⟨by decide, by decide, by decide, by decide⟩

/-- C2 (amended): the two indexes hold exactly corresponding entries —
each stored pair sits under its registration's own key and the same
registration is found in the other index — for the empty registry and
after any `register` call *whose successful registrations carry fresh
names*.  The code enforces interface uniqueness but never name
uniqueness, so the correspondence only survives when no successful
registration reuses the name of an earlier one (see the
counterexample). -/
theorem registry_indexes_sync_inv :
    Inv emptyRegistry ∧
      ∀ r reg, Inv r →
        ((Registry.register r reg).1 = none → r.find reg.Name = none) →
        Inv (Registry.register r reg).2 := by
  constructor
  · exact ⟨fun p hp => absurd hp (List.not_mem_nil p),
           fun p hp => absurd hp (List.not_mem_nil p)⟩
  · intro r reg hInv hFresh
    cases hv : verifyRegistration reg with
    | some err => rw [register_verify_some r reg err hv]; exact hInv
    | none =>
      cases hl : lookupA r.components reg.Iface with
      | some old => rw [register_conflict r reg old hv hl]; exact hInv
      | none =>
        have hname : lookupA r.byName reg.Name = none := by
          apply hFresh
          rw [register_success r reg hv hl]
        rw [register_success r reg hv hl]
        have hby : updA r.byName reg.Name reg = r.byName ++ [(reg.Name, reg)] :=
          updA_of_lookupA_none _ _ _ hname
        constructor
        · intro p hp
          show p.1 = p.2.Iface ∧
            lookupA (updA r.byName reg.Name reg) p.2.Name = some p.2
          rw [hby]
          rcases List.mem_append.mp hp with hmem | hmem
          · obtain ⟨hkey, hfound⟩ := hInv.1 p hmem
            exact ⟨hkey, lookupA_append_of_some _ _ _ _ hfound⟩
          · rw [List.mem_singleton.mp hmem]
            refine ⟨rfl, ?_⟩
            rw [lookupA_append_of_none _ _ _ hname]
            simp [lookupA]
        · intro p hp
          show p.1 = p.2.Name ∧
            lookupA (r.components ++ [(reg.Iface, reg)]) p.2.Iface = some p.2
          rw [hby] at hp
          rcases List.mem_append.mp hp with hmem | hmem
          · obtain ⟨hkey, hfound⟩ := hInv.2 p hmem
            exact ⟨hkey, lookupA_append_of_some _ _ _ _ hfound⟩
          · rw [List.mem_singleton.mp hmem]
            refine ⟨rfl, ?_⟩
            rw [lookupA_append_of_none _ _ _ hl]
            simp [lookupA]

/-- C2 witness: the invariant, instantiated at the empty registry and the
successful fresh-named registration of `regA`. -/
theorem registry_indexes_sync_inv_w :
    Inv (Registry.register emptyRegistry regA).2 :=
  registry_indexes_sync_inv.2 emptyRegistry regA
    ⟨fun p hp => absurd hp (List.not_mem_nil p),
     fun p hp => absurd hp (List.not_mem_nil p)⟩
    (fun _ => rfl)

/-- C2 counterexample: two valid registrations with distinct interface
types but the same name `"dup"` both succeed; afterwards the interface
index still holds the first one while the name index was overwritten to
the second — the first registration is present in one index and in no
entry of the other, the indexes are out of sync, and two successfully
registered components share a name. -/
theorem registry_name_collision_breaks_sync_cex :
    (Registry.register emptyRegistry regDupA).1 = none ∧
      (Registry.register (Registry.register emptyRegistry regDupA).2 regDupB).1 = none ∧
      lookupA rDup.components (some tyA) = some regDupA ∧
      rDup.find regDupA.Name = some regDupB ∧
      regDupB ≠ regDupA ∧
      rDup.components.length = 2 ∧ rDup.byName.length = 1 := by
  refine ⟨by decide, by decide, by decide, by decide, by decide, by decide, by decide⟩

/-- C5: `CallGraph` emits exactly one edge per dependency-reference field
with no deduplication (its length is the sum over all registered
components of their `Ref`-field counts — two distinct `Ref` fields with
the same callee contribute two edges), a registry whose components have
no dependency-reference fields yields the empty edge sequence, the edge
multiset is independent of registration order (permuting the component
index permutes the edges), and each `Ref` field contributes the edge
from its owner's interface descriptor to its wrapped interface
descriptor. -/
theorem callGraph_edges_spec (r : Registry) :
    (CallGraph r).length =
        (r.allComponents.map
          (fun reg => (reg.implFields.filter (fun f => isRefField f.2)).length)).sum ∧
      ((∀ reg ∈ r.allComponents, ∀ f ∈ reg.implFields, isRefField f.2 = false) →
        CallGraph r = []) ∧
      (∀ r2 : Registry, r.components.Perm r2.components →
        (CallGraph r).Perm (CallGraph r2)) ∧
      (∀ reg ∈ r.allComponents, ∀ f ∈ reg.implFields, isRefField f.2 = true →
        ∃ c, refCallee f.2 = some c ∧ (⟨reg.Iface, c⟩ : CallEdge) ∈ CallGraph r) := by
  refine ⟨?_, ?_, ?_, ?_⟩
  · rw [CallGraph_eq_flatMap, List.length_flatMap]
    exact congrArg List.sum (List.map_congr_left (fun reg _ => edgesOf_length reg))
  · intro h
    rw [CallGraph_eq_flatMap]
    rw [List.flatMap_eq_nil_iff]
    exact fun reg hreg => edgesOf_eq_nil reg (h reg hreg)
  · intro r2 hperm
    rw [CallGraph_eq_flatMap, CallGraph_eq_flatMap]
    exact (hperm.map Prod.snd).flatMap_right edgesOf
  · intro reg hreg f hf hrf
    obtain ⟨c, hc⟩ := refCallee_isSome_of_isRefField f.2 hrf
    refine ⟨c, hc, ?_⟩
    rw [CallGraph_eq_flatMap, List.mem_flatMap]
    refine ⟨reg, hreg, ?_⟩
    unfold edgesOf
    rw [List.mem_filterMap]
    exact ⟨f, hf, by simp [hrf, hc]⟩

/-- C5 witness: with components `A` (no dependency fields) and `B` (one
`Ref[A]` field), the edge multisets of the two registration orders are
permutations of each other, and the registry holding only `A` yields no
edges. -/
theorem callGraph_edges_spec_w :
    (CallGraph rAB).Perm (CallGraph rBA) ∧ CallGraph rOnlyA = [] :=
  ⟨(callGraph_edges_spec rAB).2.2.1 rBA (by
      rw [show rAB.components = [(some tyA, regA), (some tyB, regB)] by decide,
          show rBA.components = [(some tyB, regB), (some tyA, regA)] by decide]
      exact List.Perm.swap _ _ _),
   (callGraph_edges_spec rOnlyA).2.1 (by decide)⟩

end Weaver
